import Mathlib

/-!
Verification of the docling-service Flask endpoint (`src/docling-service/app.py`).

The service is a single `/process` request handler: it validates the upload,
stages the bytes to a uniquely named temporary file, invokes the external
docling converter on the staged path, exports the result to Markdown, and
removes the staged file in a `finally` block.

The embedding below follows `process_document` statement by statement.
Python exceptions are modelled explicitly: each fallible operation of the
handler (reading the upload, creating the temporary file, writing into it,
removing it) is given a per-request fault oracle in `Env`, and the external
converter and its Markdown export are fallible functions carried by
`DocumentConverter` and `DoclingDocument`.  Local-variable semantics matter
here: `temp_file_path` is assigned only inside the `try` block, so the
`finally` block can observe it unbound (Python raises `UnboundLocalError`),
which the model tracks with `TfpState`.
-/

namespace DoclingService

/-- Raw upload bytes (`file.read()` result). -/
abbrev Bytes := List Nat

/-- One entry of `request.files`: original filename plus the byte content. -/
structure UploadFile where
  filename : String
  content : Bytes
  deriving DecidableEq, Repr

/-- The multipart request: the `request.files` mapping from field name to file. -/
structure Request where
  files : List (String × UploadFile)
  deriving DecidableEq, Repr

/-- A temporary-file path as produced by `tempfile.NamedTemporaryFile`:
a process-unique allocation id together with the requested suffix. -/
structure Path where
  id : Nat
  suffix : String
  deriving DecidableEq, Repr

/-- The string the OS hands back as `temp_file.name` for the allocated path. -/
def Path.render (p : Path) : String :=
  "/tmp/tmp" ++ toString p.id ++ p.suffix

/-- The local filesystem visible to the handler: the temp files currently on
disk, plus the allocator counter that makes `NamedTemporaryFile` names unique. -/
structure FS where
  files : List (Path × Bytes)
  nextId : Nat
  deriving DecidableEq, Repr

/-- `os.path.exists`. -/
def FS.pathExists (fs : FS) (p : Path) : Bool :=
  fs.files.any (fun e => e.1 == p)

/-- Content of the file at `p` (defaults to empty when absent; the handler
only reads paths it has just written). -/
def FS.readFile (fs : FS) (p : Path) : Bytes :=
  match fs.files.lookup p with
  | some b => b
  | none => []

/-- Overwrite the file at `p` with bytes `b`. -/
def FS.write (fs : FS) (p : Path) (b : Bytes) : FS :=
  ⟨(p, b) :: fs.files.filter (fun e => !(e.1 == p)), fs.nextId⟩

/-- `os.remove`. -/
def FS.remove (fs : FS) (p : Path) : FS :=
  ⟨fs.files.filter (fun e => !(e.1 == p)), fs.nextId⟩

/-- `tempfile.NamedTemporaryFile(delete=False, suffix=suffix)`: create an
empty file at a fresh unique name carrying the requested suffix. -/
def FS.alloc (fs : FS) (suffix : String) : Path × FS :=
  let p : Path := ⟨fs.nextId, suffix⟩
  (p, ⟨(p, []) :: fs.files, fs.nextId + 1⟩)

/-- Allocator soundness: every path on disk was allocated below the counter. -/
def FS.Wf (fs : FS) : Bool :=
  fs.files.all (fun e => e.1.id < fs.nextId)

/-- Index of the last occurrence of `c` (Python `str.rfind`, `none` for -1). -/
def rfindChar (c : Char) : List Char → Option Nat
  | [] => none
  | x :: xs =>
    match rfindChar c xs with
    | some i => some (i + 1)
    | none => if x == c then some 0 else none

/-- The extension component of `os.path.splitext` (posix rules): text from the
last dot after the last separator, unless the basename up to that dot is all
dots (so `.bashrc` has no extension). -/
def splitextExt (s : String) : String :=
  let cs := s.data
  match rfindChar '.' cs with
  | none => ""
  | some e =>
    let startIdx : Nat :=
      match rfindChar '/' cs with
      | none => 0
      | some sp => sp + 1
    let gtSep : Bool :=
      match rfindChar '/' cs with
      | none => true
      | some sp => decide (sp < e)
    if gtSep && ((cs.take e).drop startIdx).any (fun ch => ch != '.') then
      String.mk (cs.drop e)
    else ""

/-- The opaque document object of a docling conversion result; the only
operation the handler uses is its (fallible) Markdown export. -/
structure DoclingDocument where
  export_to_markdown : Except String String

/-- `result = converter.convert(...)` returns an object whose `document`
field carries the export operation. -/
structure ConversionResult where
  document : DoclingDocument

/-- The docling `DocumentConverter`: given the staged file content, either a
conversion result or a raised exception (its `str(e)` message). The converter
is a function, so it is deterministic in the file content. -/
structure DocumentConverter where
  convert : Bytes → Except String ConversionResult

/-- Module-level `try: converter = DocumentConverter() except: converter = None`. -/
def initConverter (init : Except String DocumentConverter) : Option DocumentConverter :=
  match init with
  | .ok c => some c
  | .error _ => none

/-- Per-request fault oracles for the fallible handler-level operations:
`some msg` means that operation raises with message `msg` on this request.
`removeFault` is an `OSError` from `os.remove`. -/
structure Env where
  readFault : Option String
  createFault : Option String
  writeFault : Option String
  removeFault : Option String

/-- A JSON error body as produced by `jsonify`: always an `error` key, plus
an optional `details` key. -/
structure JsonBody where
  error : String
  details : Option String
  deriving DecidableEq, Repr

/-- Response body: a JSON error object or Markdown text. -/
inductive RespBody where
  | json (j : JsonBody)
  | markdown (text : String)
  deriving DecidableEq, Repr

/-- An HTTP response: status code, content type, body. -/
structure HttpResponse where
  status : Nat
  mimetype : String
  body : RespBody
  deriving DecidableEq, Repr

/-- What a request produces at the handler boundary: either a response, or a
Python exception that escaped the handler. -/
inductive Outcome where
  | resp (r : HttpResponse)
  | uncaught (e : String)
  deriving DecidableEq, Repr

/-- The binding state of the Python local `temp_file_path` when the `finally`
block runs: unbound (assignment never executed), or bound to `None` / a path. -/
inductive TfpState where
  | unbound
  | bound (p : Option Path)
  deriving DecidableEq, Repr

/-- Result of the `try`/`except` part of the handler: the pending response
(the bare `except Exception` catches everything raised in the `try`, so the
pending result is always a response), the binding state of `temp_file_path`,
and the filesystem as the `finally` block sees it. -/
structure TryResult where
  response : HttpResponse
  tfp : TfpState
  fs : FS
  deriving Repr

/-- `jsonify({"error": "Failed to process document with docling", "details": str(e)}), 500`. -/
def processingFailure (m : String) : HttpResponse :=
  ⟨500, "application/json", .json ⟨"Failed to process document with docling", some m⟩⟩

/-- `jsonify({"error": "Internal error: Temp file path not set."}), 500`. -/
def internalPathError : HttpResponse :=
  ⟨500, "application/json", .json ⟨"Internal error: Temp file path not set.", none⟩⟩

/-- The `try` block of `process_document`, statement by statement:
read the upload, set `temp_file_path = None`, create the temp file, write the
bytes, record `temp_file.name`, guard on the recorded path, convert, export,
and build the `text/markdown` response; any raise lands in the
`except Exception` clause, which builds the processing-failure response. -/
def process_try (conv : DocumentConverter) (env : Env) (file : UploadFile) (fs : FS) :
    TryResult :=
  match env.readFault with
  | some m => ⟨processingFailure m, .unbound, fs⟩
  | none =>
    let file_bytes := file.content
    match env.createFault with
    | some m => ⟨processingFailure m, .bound none, fs⟩
    | none =>
      let alloc := fs.alloc (splitextExt file.filename)
      let temp_path := alloc.1
      let fs1 := alloc.2
      match env.writeFault with
      | some m => ⟨processingFailure m, .bound none, fs1⟩
      | none =>
        let fs2 := fs1.write temp_path file_bytes
        if temp_path.render = "" then
          ⟨internalPathError, .bound (some temp_path), fs2⟩
        else
          match conv.convert (fs2.readFile temp_path) with
          | .error m => ⟨processingFailure m, .bound (some temp_path), fs2⟩
          | .ok result =>
            match result.document.export_to_markdown with
            | .error m => ⟨processingFailure m, .bound (some temp_path), fs2⟩
            | .ok markdown_output =>
              ⟨⟨200, "text/markdown", .markdown markdown_output⟩,
                .bound (some temp_path), fs2⟩

/-- The `finally` block: reading an unbound `temp_file_path` raises
`UnboundLocalError`, which replaces the pending return and escapes the
handler; otherwise, when the path is truthy and the file exists, remove it,
with an `OSError` from `os.remove` caught and only logged. -/
def process_finally (env : Env) (pending : HttpResponse) (tfp : TfpState) (fs : FS) :
    Outcome × FS :=
  match tfp with
  | .unbound =>
    (.uncaught "UnboundLocalError: local variable temp_file_path referenced before assignment",
      fs)
  | .bound none => (.resp pending, fs)
  | .bound (some p) =>
    if p.render ≠ "" ∧ fs.pathExists p then
      match env.removeFault with
      | some _ => (.resp pending, fs)
      | none => (.resp pending, fs.remove p)
    else (.resp pending, fs)

/-- The `/process` handler `process_document`: converter-availability check,
`file`-field check, empty-filename check, then the `try`/`except`/`finally`
composite. -/
def process_document (converter : Option DocumentConverter) (env : Env)
    (req : Request) (fs : FS) : Outcome × FS :=
  match converter with
  | none =>
    (.resp ⟨503, "application/json",
      .json ⟨"Docling converter not initialized during startup", none⟩⟩, fs)
  | some conv =>
    match req.files.lookup "file" with
    | none =>
      (.resp ⟨400, "application/json", .json ⟨"No file part in the request", none⟩⟩, fs)
    | some file =>
      if file.filename = "" then
        (.resp ⟨400, "application/json", .json ⟨"No selected file", none⟩⟩, fs)
      else
        let t := process_try conv env file fs
        process_finally env t.response t.tfp t.fs

/-- The path at which a request with the given original filename stages its
upload when run against filesystem `fs`. -/
def stagedPath (filename : String) (fs : FS) : Path :=
  ⟨fs.nextId, splitextExt filename⟩

/-- Process-wide state shared across requests: the converter slot set once at
startup, and the temp filesystem. -/
structure Globals where
  converter : Option DocumentConverter
  fs : FS

/-- One request at the process level: the handler reads the converter slot and
returns the response and the updated filesystem; the module global `converter`
is never reassigned (the handler body contains no assignment to it). -/
def handleRequest (env : Env) (req : Request) (g : Globals) : Outcome × Globals :=
  let r := process_document g.converter env req g.fs
  (r.1, ⟨g.converter, r.2⟩)

/-- Run a sequence of requests against the process state. -/
def runRequests : List (Env × Request) → Globals → Globals
  | [], g => g
  | (env, req) :: rest, g => runRequests rest (handleRequest env req g).2

/-! ### Helper lemmas about the filesystem model and the handler pieces -/

theorem Path.render_ne_empty (p : Path) : p.render ≠ "" := by
  intro h
  have hlen := congrArg String.length h
  rw [Path.render] at hlen
  simp [String.length_append] at hlen
  exact absurd hlen.1.1 (by decide)

theorem FS.readFile_write (fs : FS) (p : Path) (b : Bytes) :
    (fs.write p b).readFile p = b := by
  simp [FS.write, FS.readFile, List.lookup]

theorem FS.pathExists_write_self (fs : FS) (p : Path) (b : Bytes) :
    (fs.write p b).pathExists p = true := by
  simp [FS.write, FS.pathExists]

theorem FS.pathExists_remove (fs : FS) (p : Path) :
    (fs.remove p).pathExists p = false := by
  simp only [FS.remove, FS.pathExists]
  rw [List.any_eq_false]
  intro e he
  rw [List.mem_filter] at he
  simpa using he.2

theorem FS.pathExists_fresh (fs : FS) (s : String) (h : fs.Wf = true) :
    fs.pathExists ⟨fs.nextId, s⟩ = false := by
  simp only [FS.pathExists]
  rw [List.any_eq_false]
  intro e he
  have hlt : e.1.id < fs.nextId := by
    have := (List.all_eq_true.mp h) e he
    simpa using this
  simp only [beq_iff_eq]
  intro hcontra
  rw [hcontra] at hlt
  exact absurd hlt (by simp)

theorem FS.nextId_write (fs : FS) (p : Path) (b : Bytes) :
    (fs.write p b).nextId = fs.nextId := rfl

theorem FS.nextId_remove (fs : FS) (p : Path) :
    (fs.remove p).nextId = fs.nextId := rfl

/-- Whenever `temp_file_path` is bound, the `finally` block returns the
pending response unchanged, whatever the filesystem and remove fault. -/
theorem process_finally_fst (env : Env) (pending : HttpResponse) (p : Option Path)
    (fs : FS) :
    (process_finally env pending (TfpState.bound p) fs).1 = Outcome.resp pending := by
  cases p with
  | none => rfl
  | some q =>
    simp only [process_finally]
    split
    · cases env.removeFault <;> rfl
    · rfl

/-- Shape of the `try` block when reading, temp-file creation and the write
all succeed: the upload is staged at `stagedPath`, the path is recorded, and
the result is determined by the converter and the Markdown export. -/
theorem process_try_no_fault (conv : DocumentConverter) (env : Env) (f : UploadFile)
    (fs : FS) (hread : env.readFault = none) (hcreate : env.createFault = none)
    (hwrite : env.writeFault = none) :
    process_try conv env f fs =
      let p := stagedPath f.filename fs
      let fs2 := ((fs.alloc (splitextExt f.filename)).2).write p f.content
      match conv.convert f.content with
      | .error m => ⟨processingFailure m, .bound (some p), fs2⟩
      | .ok result =>
        match result.document.export_to_markdown with
        | .error m => ⟨processingFailure m, .bound (some p), fs2⟩
        | .ok md => ⟨⟨200, "text/markdown", .markdown md⟩, .bound (some p), fs2⟩ := by
  simp only [process_try, hread, hcreate, hwrite]
  rw [if_neg (Path.render_ne_empty _)]
  rw [FS.readFile_write]
  rfl

/-! ### Concrete fixtures for counterexamples and witnesses -/

/-- A converter that always succeeds and exports a fixed Markdown document. -/
def mdConverter : DocumentConverter :=
  ⟨fun _ => .ok ⟨⟨.ok "# Converted"⟩⟩⟩

/-- A fault-free request environment. -/
def noFaultEnv : Env := ⟨none, none, none, none⟩

/-- A request carrying a `file` field named `doc.pdf` with four bytes. -/
def pdfRequest : Request := ⟨[("file", ⟨"doc.pdf", [37, 80, 68, 70]⟩)]⟩

/-- The upload carried by `pdfRequest`. -/
def pdfUpload : UploadFile := ⟨"doc.pdf", [37, 80, 68, 70]⟩

/-- An empty temp filesystem. -/
def emptyFS : FS := ⟨[], 0⟩

/-! ### Claim theorems -/

/-- C1: the claim states that every exception raised inside the handler,
including while reading the upload, is caught and mapped to a structured JSON
error response.  The code violates this: when `file.read()` raises, the local
`temp_file_path` is never assigned, so the `finally` block raises
`UnboundLocalError`, which discards the pending JSON response and propagates
past the handler boundary.  This theorem evaluates the handler at such a
request and shows the escaped exception. -/
theorem read_fault_escapes_handler :
    process_document (some mdConverter) ⟨some "read interrupted", none, none, none⟩
        pdfRequest emptyFS =
      (.uncaught "UnboundLocalError: local variable temp_file_path referenced before assignment",
        emptyFS) := rfl

/-- C2 counterexample: a request that creates a staged temporary file whose
write then raises (e.g. disk full) returns its 500 response with the staged
file still on disk — the `finally` block skips deletion because
`temp_file_path` was never assigned the file's name.  This refutes the claim
that every created staged file is deleted before the handler returns. -/
theorem write_fault_leaks_staged_file :
    ((process_document (some mdConverter) ⟨none, none, some "disk full", none⟩
        pdfRequest emptyFS).2).pathExists ⟨0, ".pdf"⟩ = true
    ∧ (process_document (some mdConverter) ⟨none, none, some "disk full", none⟩
        pdfRequest emptyFS).1 = .resp (processingFailure "disk full") :=
  ⟨rfl, rfl⟩

/-- C4: if the converter failed to construct at startup (module-level `except`
leaves `converter = None`), every `/process` request — whatever its body,
faults, or filesystem — returns 503 with the unavailability error payload,
and the state is untouched (no staging, no retry, no crash). -/
theorem failed_init_returns_503_for_every_request (m : String) (env : Env)
    (req : Request) (fs : FS) :
    process_document (initConverter (Except.error m)) env req fs =
      (.resp ⟨503, "application/json",
        .json ⟨"Docling converter not initialized during startup", none⟩⟩, fs) := rfl

/-- Auxiliary: a request never changes the converter slot of the process
state. -/
theorem handleRequest_converter (env : Env) (req : Request) (g : Globals) :
    ((handleRequest env req g).2).converter = g.converter := rfl

/-- Auxiliary: any request sequence leaves the converter slot unchanged. -/
theorem runRequests_converter (reqs : List (Env × Request)) (g : Globals) :
    (runRequests reqs g).converter = g.converter := by
  induction reqs generalizing g with
  | nil => rfl
  | cons r rest ih =>
    cases r with
    | mk env req => simpa [runRequests] using ih (handleRequest env req g).2

/-- C10: the process-wide converter reference is assigned exactly once at
startup (`initConverter`), and no execution of the request handler mutates
it: after any sequence of requests the slot still holds the startup value. -/
theorem converter_reference_never_mutated (init : Except String DocumentConverter)
    (fs : FS) (reqs : List (Env × Request)) :
    (runRequests reqs ⟨initConverter init, fs⟩).converter = initConverter init :=
  runRequests_converter reqs ⟨initConverter init, fs⟩

/-- Auxiliary: the `finally` block never changes the allocator counter. -/
theorem process_finally_nextId (env : Env) (pending : HttpResponse) (tfp : TfpState)
    (fs : FS) :
    ((process_finally env pending tfp fs).2).nextId = fs.nextId := by
  cases tfp with
  | unbound => rfl
  | bound p =>
    cases p with
    | none => rfl
    | some q =>
      simp only [process_finally]
      split
      · cases env.removeFault <;> rfl
      · rfl

/-- Auxiliary: when the recorded path is on disk and `os.remove` does not
fault, the `finally` block removes it. -/
theorem process_finally_removes (env : Env) (pending : HttpResponse) (p : Path)
    (fs : FS) (hrem : env.removeFault = none) (hex : fs.pathExists p = true) :
    ((process_finally env pending (TfpState.bound (some p)) fs).2).pathExists p
      = false := by
  simp only [process_finally]
  rw [if_pos ⟨Path.render_ne_empty p, by rw [hex]⟩]
  simp only [hrem]
  exact FS.pathExists_remove fs p

/-- Auxiliary: shape of the whole handler on the success path — the response
is the converter's Markdown export verbatim, and the allocator counter
advanced by exactly one staging. -/
theorem run_success (conv : DocumentConverter) (env : Env) (req : Request)
    (f : UploadFile) (fs : FS)
    (hfile : req.files.lookup "file" = some f) (hname : f.filename ≠ "")
    (hread : env.readFault = none) (hcreate : env.createFault = none)
    (hwrite : env.writeFault = none) (result : ConversionResult) (md : String)
    (hconv : conv.convert f.content = .ok result)
    (hexp : result.document.export_to_markdown = .ok md) :
    (process_document (some conv) env req fs).1 =
      .resp ⟨200, "text/markdown", .markdown md⟩
    ∧ ((process_document (some conv) env req fs).2).nextId = fs.nextId + 1 := by
  simp only [process_document, hfile]
  rw [if_neg hname]
  rw [process_try_no_fault conv env f fs hread hcreate hwrite]
  simp only [hconv, hexp]
  constructor
  · exact process_finally_fst _ _ _ _
  · rw [process_finally_nextId]
    rfl

/-- C6: with the converter available, the precondition checks run in order
and short-circuit: a request without a `file` field gets 400 with error
`No file part in the request` (whatever its filenames would be), and a request
whose file field has an empty filename gets 400 with error `No selected file`;
in both cases the filesystem is returned untouched, so no staged file was
created. -/
theorem precondition_checks_short_circuit_in_order (conv : DocumentConverter)
    (env : Env) (req : Request) (fs : FS) :
    (req.files.lookup "file" = none →
      process_document (some conv) env req fs =
        (.resp ⟨400, "application/json", .json ⟨"No file part in the request", none⟩⟩,
          fs))
    ∧ (∀ f, req.files.lookup "file" = some f → f.filename = "" →
      process_document (some conv) env req fs =
        (.resp ⟨400, "application/json", .json ⟨"No selected file", none⟩⟩, fs)) := by
  constructor
  · intro h
    simp [process_document, h]
  · intro f hf he
    simp [process_document, hf, he]

/-- C6 witness: the theorem applied to a request with no `file` field and to a
request whose filename is empty. -/
theorem precondition_checks_short_circuit_in_order_witness :
    process_document (some mdConverter) noFaultEnv ⟨[]⟩ emptyFS =
      (.resp ⟨400, "application/json", .json ⟨"No file part in the request", none⟩⟩,
        emptyFS)
    ∧ process_document (some mdConverter) noFaultEnv ⟨[("file", ⟨"", [1]⟩)]⟩ emptyFS =
      (.resp ⟨400, "application/json", .json ⟨"No selected file", none⟩⟩, emptyFS) :=
  ⟨(precondition_checks_short_circuit_in_order mdConverter noFaultEnv ⟨[]⟩ emptyFS).1
      rfl,
    (precondition_checks_short_circuit_in_order mdConverter noFaultEnv
      ⟨[("file", ⟨"", [1]⟩)]⟩ emptyFS).2 ⟨"", [1]⟩ rfl rfl⟩

/-- C3: with the converter available and a valid upload whose read succeeds,
any exception raised while creating the staged temp file, writing into it,
invoking the converter, or exporting to Markdown yields status 500 with body
`{error: Failed to process document with docling, details: str(e)}`. -/
theorem staging_conversion_errors_return_500_json (conv : DocumentConverter)
    (env : Env) (req : Request) (f : UploadFile) (fs : FS)
    (hfile : req.files.lookup "file" = some f) (hname : f.filename ≠ "")
    (hread : env.readFault = none) :
    (∀ m, env.createFault = some m →
      (process_document (some conv) env req fs).1 = .resp (processingFailure m))
    ∧ (∀ m, env.createFault = none → env.writeFault = some m →
      (process_document (some conv) env req fs).1 = .resp (processingFailure m))
    ∧ (∀ m, env.createFault = none → env.writeFault = none →
      conv.convert f.content = .error m →
      (process_document (some conv) env req fs).1 = .resp (processingFailure m))
    ∧ (∀ m result, env.createFault = none → env.writeFault = none →
      conv.convert f.content = .ok result →
      result.document.export_to_markdown = .error m →
      (process_document (some conv) env req fs).1 = .resp (processingFailure m)) := by
  refine ⟨?_, ?_, ?_, ?_⟩
  · intro m hm
    simp only [process_document, hfile]
    rw [if_neg hname]
    simp only [process_try, hread, hm]
    exact process_finally_fst _ _ _ _
  · intro m hc hm
    simp only [process_document, hfile]
    rw [if_neg hname]
    simp only [process_try, hread, hc, hm]
    exact process_finally_fst _ _ _ _
  · intro m hc hw hconv
    simp only [process_document, hfile]
    rw [if_neg hname]
    rw [process_try_no_fault conv env f fs hread hc hw]
    simp only [hconv]
    exact process_finally_fst _ _ _ _
  · intro m result hc hw hconv hexp
    simp only [process_document, hfile]
    rw [if_neg hname]
    rw [process_try_no_fault conv env f fs hread hc hw]
    simp only [hconv, hexp]
    exact process_finally_fst _ _ _ _

/-- C3 witness: the theorem applied to a request whose temp-file creation
raises with message `no space`. -/
theorem staging_conversion_errors_return_500_json_witness :
    (process_document (some mdConverter) ⟨none, some "no space", none, none⟩
        pdfRequest emptyFS).1 = .resp (processingFailure "no space") :=
  (staging_conversion_errors_return_500_json mdConverter
      ⟨none, some "no space", none, none⟩ pdfRequest pdfUpload emptyFS rfl
      (by decide) rfl).1 "no space" rfl

/-- C5: for every request whose upload the converter converts without raising
(and whose read, staging and Markdown export succeed), the response has the
success status 200, content type `text/markdown`, and a body equal character
for character to the converter's Markdown export of the conversion result. -/
theorem successful_conversion_returns_markdown_verbatim (conv : DocumentConverter)
    (env : Env) (req : Request) (f : UploadFile) (fs : FS)
    (hfile : req.files.lookup "file" = some f) (hname : f.filename ≠ "")
    (hread : env.readFault = none) (hcreate : env.createFault = none)
    (hwrite : env.writeFault = none) (result : ConversionResult) (md : String)
    (hconv : conv.convert f.content = .ok result)
    (hexp : result.document.export_to_markdown = .ok md) :
    (process_document (some conv) env req fs).1 =
      .resp ⟨200, "text/markdown", .markdown md⟩ :=
  (run_success conv env req f fs hfile hname hread hcreate hwrite result md hconv
    hexp).1

/-- C5 witness: the theorem applied to the fault-free `doc.pdf` request with
the fixed converter. -/
theorem successful_conversion_returns_markdown_verbatim_witness :
    (process_document (some mdConverter) noFaultEnv pdfRequest emptyFS).1 =
      .resp ⟨200, "text/markdown", .markdown "# Converted"⟩ :=
  successful_conversion_returns_markdown_verbatim mdConverter noFaultEnv pdfRequest
    pdfUpload emptyFS rfl (by decide) rfl rfl rfl ⟨⟨.ok "# Converted"⟩⟩
    "# Converted" rfl rfl

/-- C2 (amended): for every request that creates a staged temporary file and
whose write into it succeeds (so `temp_file.name` is recorded), the response
already determined by the `try`/`except` block is returned unchanged whatever
`os.remove` does — a deletion failure is only logged — and when deletion does
not fault the staged file is gone from disk before the handler returns, on
every exit path (success, conversion error, export error). -/
theorem recorded_staged_file_always_removed (conv : DocumentConverter) (env : Env)
    (req : Request) (f : UploadFile) (fs : FS)
    (hfile : req.files.lookup "file" = some f) (hname : f.filename ≠ "")
    (hread : env.readFault = none) (hcreate : env.createFault = none)
    (hwrite : env.writeFault = none) :
    (process_document (some conv) env req fs).1 =
      .resp (process_try conv env f fs).response
    ∧ (env.removeFault = none →
      ((process_document (some conv) env req fs).2).pathExists
        (stagedPath f.filename fs) = false) := by
  constructor
  · simp only [process_document, hfile]
    rw [if_neg hname]
    rw [process_try_no_fault conv env f fs hread hcreate hwrite]
    rcases hconv : conv.convert f.content with m | r
    · simp only [hconv]
      exact process_finally_fst _ _ _ _
    · rcases hexp : r.document.export_to_markdown with m | md <;>
        · simp only [hconv, hexp]
          exact process_finally_fst _ _ _ _
  · intro hrem
    simp only [process_document, hfile]
    rw [if_neg hname]
    rw [process_try_no_fault conv env f fs hread hcreate hwrite]
    rcases hconv : conv.convert f.content with m | r
    · simp only [hconv]
      exact process_finally_removes env _ _ _ hrem (FS.pathExists_write_self _ _ _)
    · rcases hexp : r.document.export_to_markdown with m | md <;>
        · simp only [hconv, hexp]
          exact process_finally_removes env _ _ _ hrem
            (FS.pathExists_write_self _ _ _)

/-- C2 witness: the theorem applied to the fault-free `doc.pdf` request — the
staged file is gone from the resulting filesystem. -/
theorem recorded_staged_file_always_removed_witness :
    ((process_document (some mdConverter) noFaultEnv pdfRequest emptyFS).2).pathExists
      (stagedPath "doc.pdf" emptyFS) = false :=
  (recorded_staged_file_always_removed mdConverter noFaultEnv pdfRequest pdfUpload
    emptyFS rfl (by decide) rfl rfl rfl).2 rfl

/-- C7: for every upload staged without faults, the temporary file is fresh
(its path exists nowhere on a well-formed filesystem beforehand), its suffix
is exactly the `os.path.splitext` extension of the original filename, its
content is exactly the uploaded byte sequence, and its path is what
`temp_file_path` records. -/
theorem staged_file_unique_suffix_content (conv : DocumentConverter) (env : Env)
    (f : UploadFile) (fs : FS)
    (hread : env.readFault = none) (hcreate : env.createFault = none)
    (hwrite : env.writeFault = none) (hwf : fs.Wf = true) :
    fs.pathExists (stagedPath f.filename fs) = false
    ∧ (stagedPath f.filename fs).suffix = splitextExt f.filename
    ∧ (process_try conv env f fs).fs.readFile (stagedPath f.filename fs) = f.content
    ∧ (process_try conv env f fs).tfp = .bound (some (stagedPath f.filename fs)) := by
  refine ⟨FS.pathExists_fresh fs (splitextExt f.filename) hwf, rfl, ?_, ?_⟩
  · rw [process_try_no_fault conv env f fs hread hcreate hwrite]
    rcases hconv : conv.convert f.content with m | r
    · simp only [hconv]
      exact FS.readFile_write _ _ _
    · rcases hexp : r.document.export_to_markdown with m | md <;>
        · simp only [hconv, hexp]
          exact FS.readFile_write _ _ _
  · rw [process_try_no_fault conv env f fs hread hcreate hwrite]
    rcases hconv : conv.convert f.content with m | r
    · simp only [hconv]
    · rcases hexp : r.document.export_to_markdown with m | md <;>
        simp only [hconv, hexp]

/-- C7 witness: the theorem applied to the `doc.pdf` upload on the empty
filesystem. -/
theorem staged_file_unique_suffix_content_witness :
    emptyFS.pathExists (stagedPath "doc.pdf" emptyFS) = false
    ∧ (stagedPath "doc.pdf" emptyFS).suffix = splitextExt "doc.pdf"
    ∧ (process_try mdConverter noFaultEnv pdfUpload emptyFS).fs.readFile
        (stagedPath "doc.pdf" emptyFS) = [37, 80, 68, 70]
    ∧ (process_try mdConverter noFaultEnv pdfUpload emptyFS).tfp =
        .bound (some (stagedPath "doc.pdf" emptyFS)) :=
  staged_file_unique_suffix_content mdConverter noFaultEnv pdfUpload emptyFS rfl rfl
    rfl rfl

/-- C8: submitting the same file bytes in two consecutive requests (same
deterministic converter, no faults) stages them at two distinct temporary
paths, and both responses carry the same Markdown body. -/
theorem same_bytes_twice_distinct_paths_equal_bodies (conv : DocumentConverter)
    (env : Env) (req : Request) (f : UploadFile) (fs : FS)
    (hfile : req.files.lookup "file" = some f) (hname : f.filename ≠ "")
    (hread : env.readFault = none) (hcreate : env.createFault = none)
    (hwrite : env.writeFault = none) (result : ConversionResult) (md : String)
    (hconv : conv.convert f.content = .ok result)
    (hexp : result.document.export_to_markdown = .ok md) :
    stagedPath f.filename fs ≠
      stagedPath f.filename (process_document (some conv) env req fs).2
    ∧ (process_document (some conv) env req fs).1 =
        .resp ⟨200, "text/markdown", .markdown md⟩
    ∧ (process_document (some conv) env req
          (process_document (some conv) env req fs).2).1 =
        .resp ⟨200, "text/markdown", .markdown md⟩ := by
  have h1 := run_success conv env req f fs hfile hname hread hcreate hwrite result
    md hconv hexp
  have h2 := run_success conv env req f (process_document (some conv) env req fs).2
    hfile hname hread hcreate hwrite result md hconv hexp
  refine ⟨?_, h1.1, h2.1⟩
  intro hcontra
  have hid := congrArg Path.id hcontra
  simp only [stagedPath] at hid
  rw [h1.2] at hid
  omega

/-- C8 witness: the theorem applied to two consecutive fault-free `doc.pdf`
requests starting from the empty filesystem. -/
theorem same_bytes_twice_distinct_paths_equal_bodies_witness :
    stagedPath "doc.pdf" emptyFS ≠
      stagedPath "doc.pdf"
        (process_document (some mdConverter) noFaultEnv pdfRequest emptyFS).2
    ∧ (process_document (some mdConverter) noFaultEnv pdfRequest emptyFS).1 =
        .resp ⟨200, "text/markdown", .markdown "# Converted"⟩
    ∧ (process_document (some mdConverter) noFaultEnv pdfRequest
          (process_document (some mdConverter) noFaultEnv pdfRequest emptyFS).2).1 =
        .resp ⟨200, "text/markdown", .markdown "# Converted"⟩ :=
  same_bytes_twice_distinct_paths_equal_bodies mdConverter noFaultEnv pdfRequest
    pdfUpload emptyFS rfl (by decide) rfl rfl rfl ⟨⟨.ok "# Converted"⟩⟩
    "# Converted" rfl rfl

/-- Auxiliary: the `try`/`except` block never produces the
`Temp file path not set` response: every except-clause response carries
`details`, the success response has status 200, and the guard cannot fire
because a recorded temp-file name is never the empty string. -/
theorem process_try_response_ne_internal (conv : DocumentConverter) (env : Env)
    (f : UploadFile) (fs : FS) :
    (process_try conv env f fs).response ≠ internalPathError := by
  cases hread : env.readFault with
  | some m =>
    simp [process_try, hread, processingFailure, internalPathError]
  | none =>
    cases hcreate : env.createFault with
    | some m =>
      simp [process_try, hread, hcreate, processingFailure, internalPathError]
    | none =>
      cases hwrite : env.writeFault with
      | some m =>
        simp [process_try, hread, hcreate, hwrite, processingFailure,
          internalPathError]
      | none =>
        rw [process_try_no_fault conv env f fs hread hcreate hwrite]
        rcases hconv : conv.convert f.content with m | r
        · simp [hconv, processingFailure, internalPathError]
        · rcases hexp : r.document.export_to_markdown with m | md
          · simp [hconv, hexp, processingFailure, internalPathError]
          · simp [hconv, hexp, internalPathError]

/-- C9: the guard returning 500 `Internal error: Temp file path not set.` is
unreachable: no request, converter state, fault pattern or filesystem makes
the handler produce that response, because whenever control reaches the guard
the recorded temp-file name is a non-empty string. -/
theorem internal_path_error_branch_unreachable (converter : Option DocumentConverter)
    (env : Env) (req : Request) (fs : FS) :
    (process_document converter env req fs).1 ≠ .resp internalPathError := by
  cases converter with
  | none => simp [process_document, internalPathError]
  | some conv =>
    cases hfile : req.files.lookup "file" with
    | none => simp [process_document, hfile, internalPathError]
    | some f =>
      by_cases hname : f.filename = ""
      · simp [process_document, hfile, hname, internalPathError]
      · simp only [process_document, hfile]
        rw [if_neg hname]
        have htry := process_try_response_ne_internal conv env f fs
        cases htfp : (process_try conv env f fs).tfp with
        | unbound =>
          simp [process_finally]
        | bound p =>
          rw [process_finally_fst]
          simp only [ne_eq, Outcome.resp.injEq]
          exact htry

end DoclingService
